import Mathlib

/-!
Shallow embedding of the Nintaii block-rolling puzzle engine.

Coordinates and all numeric values are modelled as rationals (`ℚ`); the
JavaScript `Math.round` is `⌊x + 1/2⌋` (round half toward +infinity), the
JavaScript remainder `x % 1` is `x - trunc x` (truncation toward zero), and
`Math.floor` / `Math.ceil` are `Int.floor` / `Int.ceil`.

The only rotations the engine ever performs are quarter turns (angle
`m * 90°`, `m = 1` or `m = -1`) about the world X or Z axis, so the
axis-angle rotation used by `rotateAroundWorldAxis` is embedded as the exact
linear map of such a quarter turn, and a body's orientation is embedded as
the images of the three basis vectors (its rotation matrix, i.e. the element
of SO(3) that the implementation's unit quaternion represents).
-/

/-- 3D vector with rational components (models `THREE.Vector3`). -/
@[ext]
structure V3 where
  x : ℚ
  y : ℚ
  z : ℚ
deriving DecidableEq, Repr

/-- 2D vector with X and Z coordinates (models `Vector2XZ` from utils). -/
@[ext]
structure V2 where
  x : ℚ
  z : ℚ
deriving DecidableEq, Repr

/-- Truncation toward zero, the rounding used by the JavaScript `%` operator. -/
def jsTrunc (q : ℚ) : ℤ :=
  if 0 ≤ q then ⌊q⌋ else ⌈q⌉

/-- JavaScript `Math.round`: round half toward positive infinity. -/
def jsRound (q : ℚ) : ℤ :=
  ⌊q + 1/2⌋

/-- `twoPtRound` from utils: `Math.round(num * 100) / 100`. -/
def twoPtRound (num : ℚ) : ℚ :=
  (jsRound (num * 100) : ℚ) / 100

/-- `halfRound` from utils: `Math.round(num * 2) / 2`. -/
def halfRound (num : ℚ) : ℚ :=
  (jsRound (num * 2) : ℚ) / 2

/-- `isInt` from utils: `num % 1 === 0`. -/
def isInt (num : ℚ) : Bool :=
  decide (num - (jsTrunc num : ℚ) = 0)

/-- The two world rotation axes the engine rotates about
(`xAxis = (1,0,0)` and `zAxis = (0,0,1)` from utils). -/
inductive RotAxis where
  | X
  | Z
deriving DecidableEq, Repr

/-- Quarter-turn rotation by `m * 90°` (`m = 1` or `m = -1`) about a world
axis, acting on a vector: the exact value of the axis-angle rotation used by
`rotateAroundWorldAxis`, where `cos (m * 90°) = 0` and `sin (m * 90°) = m`. -/
def quarterRot (axis : RotAxis) (m : ℤ) (v : V3) : V3 :=
  match axis with
  | .Z => ⟨-(m : ℚ) * v.y, (m : ℚ) * v.x, v.z⟩
  | .X => ⟨v.x, -(m : ℚ) * v.z, (m : ℚ) * v.y⟩

/-- A body's orientation: the images of the three world basis vectors
(the columns of its rotation matrix). -/
@[ext]
structure Orient where
  ex : V3
  ey : V3
  ez : V3
deriving DecidableEq, Repr

/-- The identity orientation (a freshly constructed mesh). -/
def idOrient : Orient :=
  ⟨⟨1, 0, 0⟩, ⟨0, 1, 0⟩, ⟨0, 0, 1⟩⟩

/-- A block: a mesh with a position and an orientation. -/
@[ext]
structure Block where
  position : V3
  orient : Orient
deriving DecidableEq, Repr

/-- `rotateAroundWorldAxis` from utils: compose the quarter turn onto the
object's orientation (`applyQuaternion`), then subtract the pivot from the
position, rotate, and add the pivot back. -/
def rotateAroundWorldAxis (object : Block) (point : V3) (axis : RotAxis) (m : ℤ) : Block :=
  let d := quarterRot axis m
    ⟨object.position.x - point.x, object.position.y - point.y, object.position.z - point.z⟩
  { orient := ⟨quarterRot axis m object.orient.ex,
               quarterRot axis m object.orient.ey,
               quarterRot axis m object.orient.ez⟩,
    position := ⟨d.x + point.x, d.y + point.y, d.z + point.z⟩ }

/-- `getRotatedClone` from utils: rotate an independent copy of the block
(in this pure embedding, simply the rotated value). -/
def getRotatedClone (block : Block) (point : V3) (axis : RotAxis) (m : ℤ) : Block :=
  rotateAroundWorldAxis block point axis m

/-- `getBlockPos` from utils: the board cell(s) occupied by a block, derived
from its continuous position (one cell when both half-rounded coordinates are
integers, otherwise the floor and the ceil of the half-rounded pair). -/
def getBlockPos (block : Block) : List V2 :=
  if isInt (halfRound block.position.x) && isInt (halfRound block.position.z) then
    [⟨halfRound block.position.x, halfRound block.position.z⟩]
  else
    [⟨(⌊halfRound block.position.x⌋ : ℚ), (⌊halfRound block.position.z⌋ : ℚ)⟩,
     ⟨(⌈halfRound block.position.x⌉ : ℚ), (⌈halfRound block.position.z⌉ : ℚ)⟩]

/-- A level, as built by the `Level` class: level number, board tile meshes
(their positions), the winning tile's position, and the block. -/
structure Level where
  levelNum : ℤ
  board : List V3
  winTile : Option V3
  block : Block

/-- `_LEVELS` from level.js. -/
def totalLevels : ℤ := 11

/-- `dirEnum` from utils: the four roll directions. -/
inductive Dir where
  | posX
  | negX
  | posZ
  | negZ
deriving DecidableEq, Repr

/-- `offsetRotPointX` from movement.js. -/
def offsetRotPointX (lvl : Level) : ℚ :=
  if twoPtRound lvl.block.position.y = 1/2 ∧ isInt (twoPtRound lvl.block.position.z) = true
  then 1 else 1/2

/-- `offsetRotPointZ` from movement.js. -/
def offsetRotPointZ (lvl : Level) : ℚ :=
  if twoPtRound lvl.block.position.y = 1/2 ∧ isInt (twoPtRound lvl.block.position.x) = true
  then 1 else 1/2

/-- The `switch (rotDir)` of `handleBlockMovement`: rotation point (one
coordinate of the default `(0,0,0)` vector set to the rounded block
coordinate plus or minus the offset), rotation axis, and the angle modifier
`rotAngleMod` (the rotation angle is `ninetyDegRad * rotAngleMod`). -/
def rotParams (lvl : Level) (rotDir : Dir) : V3 × RotAxis × ℤ :=
  match rotDir with
  | .posX => (⟨twoPtRound lvl.block.position.x + offsetRotPointX lvl, 0, 0⟩, .Z, -1)
  | .negX => (⟨twoPtRound lvl.block.position.x - offsetRotPointX lvl, 0, 0⟩, .Z, 1)
  | .posZ => (⟨0, 0, twoPtRound lvl.block.position.z + offsetRotPointZ lvl⟩, .X, 1)
  | .negZ => (⟨0, 0, twoPtRound lvl.block.position.z - offsetRotPointZ lvl⟩, .X, -1)

/-- `isValidRotation` from movement.js: classify the future position(s) of a
rotated clone of the block and keep the verdict `true` unless some future
cell matches no board tile (the `forEach` loop's accumulator). -/
def isValidRotation (lvl : Level) (point : V3) (axis : RotAxis) (m : ℤ) : Bool :=
  let blockFuturePositions := getBlockPos (getRotatedClone lvl.block point axis m)
  let tilePositions := lvl.board.map (fun tile => V2.mk tile.x tile.z)
  blockFuturePositions.foldl
    (fun isValid blockPos =>
      if tilePositions.any (fun tilePos => decide (tilePos.x = blockPos.x ∧ tilePos.z = blockPos.z))
      then isValid else false)
    true

/-- The decision `handleBlockMovement` hands to the animation layer. -/
inductive MoveOutcome where
  /-- The guard returned early: an animation is playing or the pause menu is
  visible; nothing happens. -/
  | dropped
  /-- `animateRotation point axis (ninetyDegRad * m)`: the roll is legal. -/
  | rotate (point : V3) (axis : RotAxis) (m : ℤ)
  /-- `animateFailedRotation point axis (pi / (6 * m))`: the roll is illegal
  and only the cosmetic bounce plays. -/
  | bounce (point : V3) (axis : RotAxis) (m : ℤ)
deriving DecidableEq, Repr

/-- `handleBlockMovement` from movement.js, as a decision function: the guard
on `animationPlaying` and on the pause overlay's visibility, then the pivot,
axis and angle-modifier selection, then the validity check. -/
def handleBlockMovement (animationPlaying pauseVisible : Bool) (lvl : Level) (rotDir : Dir) :
    MoveOutcome :=
  if animationPlaying || pauseVisible then .dropped
  else
    let p := rotParams lvl rotDir
    if isValidRotation lvl p.1 p.2.1 p.2.2 then .rotate p.1 p.2.1 p.2.2
    else .bounce p.1 p.2.1 p.2.2

/-- The block once the animation started by `handleBlockMovement` has run to
completion: a legal roll applies the full `±90°` rotation (eighteen
`angle / 18` steps of `animateRotation`), a failed roll's bounce rotates
forward and then fully back, and a dropped request changes nothing. -/
def moveResult (animationPlaying pauseVisible : Bool) (lvl : Level) (rotDir : Dir) : Block :=
  match handleBlockMovement animationPlaying pauseVisible lvl rotDir with
  | .rotate point axis m => rotateAroundWorldAxis lvl.block point axis m
  | _ => lvl.block

/-- `_checkForWin` from animations.js, over the values it reads
(`level.blockPos` and `level.winTile.position`). -/
def checkForWin (blockPos : List V2) (winTilePos : V3) : Bool :=
  match blockPos with
  | [p] => decide (p.x = winTilePos.x ∧ p.z = winTilePos.z)
  | _ => false

/-- `_LAYOUTS` from level.js: per level, the 2D array of tile markers. -/
def layouts : List (List (List Char)) := [
  -- level 0
  [
   [' ', ' ', '■', '■', '■', '■', '■'],
   [' ', ' ', '■', '■', '■', '■', '■'],
   [' ', ' ', '■', '■', '■', '■', '■'],
   [' ', '■', '■', '■', '■', '■', ' '],
   [' ', '■', '■', '■', '■', '■', ' '],
   [' ', '■', '■', '■', '■', '■', ' '],
   ['■', '■', '■', '■', '■', ' ', ' '],
   ['■', '□', '■', '■', '■', ' ', ' '],
   ['■', '■', '■', '■', '■', ' ', ' ']
  ],
  -- level 1
  [
   ['■', '■', '■', '■', '■', ' ', '■', '■', '■', '■', '■'],
   ['■', '■', '■', '■', '■', ' ', '■', '■', '□', '■', '■'],
   [' ', '■', '■', '■', ' ', ' ', ' ', '■', '■', '■', ' '],
   [' ', '■', '■', '■', ' ', ' ', ' ', '■', '■', '■', ' '],
   [' ', '■', '■', '■', ' ', ' ', ' ', '■', '■', '■', ' '],
   [' ', '■', '■', '■', '■', ' ', '■', '■', '■', '■', ' '],
   [' ', ' ', ' ', '■', '■', '■', '■', '■', ' ', ' ', ' '],
   [' ', ' ', ' ', ' ', '■', '■', '■', ' ', ' ', ' ', ' '],
   [' ', ' ', ' ', ' ', ' ', '■', ' ', ' ', ' ', ' ', ' ']
  ],
  -- level 2
  [
   [' ', '■', '■', ' ', ' '],
   ['■', '■', '■', '■', ' '],
   ['■', '■', '□', '■', '■'],
   [' ', '■', '■', '■', '■'],
   [' ', ' ', '■', '■', ' ']
  ],
  -- level 3
  [
   ['■', '■', '■', '■', '■', ' ', ' ', ' '],
   ['■', '■', '■', '■', ' ', ' ', ' ', ' '],
   ['■', '■', '■', ' ', ' ', '■', '■', '■'],
   ['■', '■', ' ', ' ', ' ', '■', '□', '■'],
   ['■', '■', '■', '■', '■', '■', '■', '■'],
   [' ', ' ', ' ', ' ', ' ', '■', '■', '■'],
   [' ', ' ', ' ', ' ', ' ', '■', '■', '■']
  ],
  -- level 4
  [
   [' ', '■', '■', '■', '■'],
   [' ', ' ', ' ', ' ', '■'],
   ['■', '■', '■', ' ', '■'],
   ['■', '■', '■', '■', '■'],
   ['■', '□', '■', ' ', ' '],
   ['■', '■', '■', ' ', ' ']
  ],
  -- level 5
  [
   ['■', '■', '■', ' ', ' ', ' '],
   ['■', '■', '■', ' ', ' ', ' '],
   ['■', '■', '■', '■', '■', ' '],
   [' ', ' ', ' ', '■', '■', ' '],
   ['■', '■', '■', '■', '■', ' '],
   ['■', '■', '■', ' ', ' ', ' '],
   ['■', '■', '■', '■', '■', '■'],
   [' ', ' ', ' ', '■', '□', '■'],
   [' ', ' ', ' ', '■', '■', '■'],
   [' ', ' ', ' ', ' ', '■', '■']
  ],
  -- level 6
  [
   [' ', ' ', ' ', ' ', ' ', ' ', '■', '■', '■', '■', '■', '■', '■', ' ', ' '],
   ['■', '■', '■', '■', ' ', ' ', '■', '■', ' ', ' ', ' ', '■', '■', ' ', ' '],
   ['■', '■', '■', '■', '■', '■', '■', '■', '■', ' ', ' ', '■', '■', '■', '■'],
   ['■', '■', '■', '■', ' ', ' ', ' ', ' ', ' ', ' ', ' ', '■', '■', '□', '■'],
   ['■', '■', '■', '■', ' ', ' ', ' ', ' ', ' ', ' ', ' ', '■', '■', '■', '■'],
   [' ', ' ', ' ', ' ', ' ', ' ', ' ', ' ', ' ', ' ', ' ', ' ', '■', '■', '■'],
   [' ', ' ', ' ', ' ', ' ', ' ', ' ', ' ', ' ', ' ', ' ', ' ', ' ', ' ', ' '],
   [' ', ' ', ' ', ' ', ' ', ' ', ' ', ' ', ' ', ' ', ' ', ' ', ' ', ' ', ' '],
   [' ', ' ', ' ', ' ', ' ', ' ', ' ', ' ', ' ', ' ', ' ', ' ', ' ', ' ', ' '],
   [' ', ' ', ' ', ' ', ' ', ' ', ' ', ' ', ' ', ' ', ' ', ' ', ' ', ' ', ' ']
  ],
  -- level 7
  [
   [' ', ' ', ' ', ' ', ' ', ' ', ' ', ' ', '■', '■', '■', '■', ' ', ' ', ' '],
   [' ', ' ', ' ', ' ', ' ', ' ', ' ', ' ', '■', '■', '■', '■', ' ', ' ', ' '],
   ['■', '■', '■', ' ', ' ', ' ', ' ', '■', '■', ' ', ' ', '■', '■', '■', '■'],
   ['■', '□', '■', ' ', ' ', ' ', ' ', '■', '■', ' ', ' ', ' ', '■', '■', '■'],
   ['■', '■', '■', ' ', ' ', ' ', '■', '■', '■', ' ', ' ', ' ', '■', '■', '■'],
   ['■', '■', '■', ' ', ' ', ' ', '■', '■', '■', ' ', ' ', ' ', '■', '■', '■'],
   [' ', '■', '■', '■', ' ', ' ', ' ', '■', ' ', ' ', ' ', ' ', ' ', ' ', ' '],
   [' ', ' ', '■', '■', '■', '■', '■', '■', ' ', ' ', ' ', ' ', ' ', ' ', ' ']
  ],
  -- level 8
  [
   [' ', ' ', ' ', ' ', ' ', '■', '■', '■', '■', '■', '■', ' ', ' ', ' ', ' '],
   [' ', ' ', ' ', ' ', ' ', '■', ' ', ' ', '■', '■', '■', ' ', ' ', ' ', ' '],
   [' ', ' ', ' ', ' ', ' ', '■', ' ', ' ', '■', '■', '■', '■', '■', ' ', ' '],
   ['■', '■', '■', '■', '■', '■', ' ', ' ', ' ', ' ', ' ', '■', '■', '■', '■'],
   [' ', ' ', ' ', ' ', '■', '■', '■', ' ', ' ', ' ', ' ', '■', '■', '□', '■'],
   [' ', ' ', ' ', ' ', '■', '■', '■', ' ', ' ', ' ', ' ', ' ', '■', '■', '■'],
   [' ', ' ', ' ', ' ', ' ', ' ', '■', ' ', ' ', '■', '■', ' ', ' ', ' ', ' '],
   [' ', ' ', ' ', ' ', ' ', ' ', '■', '■', '■', '■', '■', ' ', ' ', ' ', ' '],
   [' ', ' ', ' ', ' ', ' ', ' ', '■', '■', '■', '■', '■', ' ', ' ', ' ', ' '],
   [' ', ' ', ' ', ' ', ' ', ' ', ' ', '■', '■', '■', ' ', ' ', ' ', ' ', ' ']
  ],
  -- level 9
  [
   [' ', ' ', ' ', ' ', ' ', ' ', ' ', ' ', ' ', ' ', '■', '■', '■', '■', ' '],
   ['■', '■', '■', '■', '■', '■', '■', '■', '■', '■', '■', '■', '□', '■', ' '],
   ['■', '■', '■', ' ', ' ', ' ', ' ', ' ', ' ', ' ', ' ', '■', '■', '■', ' '],
   ['■', '■', '■', '■', ' ', ' ', ' ', ' ', ' ', ' ', ' ', ' ', ' ', ' ', ' '],
   [' ', ' ', '■', '■', '■', '■', '■', '■', '■', '■', ' ', ' ', '■', '■', '■'],
   [' ', ' ', ' ', ' ', ' ', ' ', ' ', '■', '■', '■', '■', '■', '■', '■', '■'],
   [' ', '■', '■', '■', '■', ' ', ' ', ' ', ' ', ' ', '■', '■', '■', '■', '■'],
   [' ', '■', '■', '■', '■', '■', '■', '■', '■', '■', '■', ' ', ' ', ' ', ' '],
   [' ', '■', '■', '■', '■', ' ', ' ', ' ', ' ', ' ', ' ', ' ', ' ', ' ', ' ']
  ],
  -- level 10
  [
   [' ', '■', '■', '■', '■', ' ', ' ', ' ', ' ', ' ', ' ', ' '],
   [' ', '■', '□', '■', '■', ' ', ' ', ' ', ' ', ' ', ' ', ' '],
   [' ', '■', '■', '■', ' ', ' ', ' ', ' ', ' ', ' ', ' ', ' '],
   [' ', '■', ' ', ' ', ' ', '■', '■', '■', '■', '■', '■', ' '],
   [' ', '■', ' ', ' ', ' ', '■', '■', ' ', ' ', '■', '■', ' '],
   ['■', '■', '■', '■', '■', '■', '■', ' ', ' ', '■', '■', '■'],
   [' ', ' ', ' ', ' ', ' ', '■', ' ', ' ', ' ', ' ', ' ', '■'],
   [' ', ' ', ' ', ' ', ' ', '■', '■', '■', '■', ' ', ' ', '■'],
   [' ', ' ', ' ', ' ', ' ', '■', '■', '■', '■', '■', '■', '■'],
   [' ', ' ', ' ', ' ', ' ', ' ', ' ', ' ', '■', '■', '■', ' ']
  ],
  -- level 11
  [
   [' ', ' ', ' ', ' ', ' ', ' ', ' ', ' ', ' ', ' ', ' ', ' ', ' ', ' ', ' ', ' ', ' ', ' ', ' ', ' '],
   [' ', ' ', ' ', ' ', ' ', ' ', ' ', ' ', ' ', ' ', ' ', ' ', ' ', ' ', ' ', ' ', ' ', ' ', ' ', ' '],
   [' ', ' ', ' ', ' ', ' ', '■', '■', '■', '■', ' ', '■', ' ', ' ', ' ', ' ', ' ', ' ', ' ', ' ', ' '],
   [' ', ' ', ' ', ' ', '■', '■', '■', '■', '■', '■', '■', '■', ' ', ' ', ' ', ' ', ' ', ' ', ' ', ' '],
   [' ', ' ', ' ', ' ', '■', ' ', ' ', '■', '■', '■', '■', '■', ' ', ' ', ' ', ' ', ' ', ' ', ' ', ' '],
   [' ', ' ', ' ', ' ', '■', ' ', ' ', ' ', ' ', '■', ' ', '■', ' ', ' ', ' ', ' ', ' ', ' ', ' ', ' '],
   [' ', ' ', ' ', ' ', '■', ' ', ' ', ' ', ' ', ' ', ' ', '■', '■', '■', '■', ' ', ' ', ' ', ' ', ' '],
   [' ', ' ', ' ', '■', '■', ' ', ' ', ' ', ' ', '■', ' ', ' ', ' ', '■', '■', ' ', ' ', ' ', ' ', ' '],
   [' ', ' ', ' ', '■', '■', ' ', ' ', ' ', '■', '■', '■', ' ', ' ', ' ', '■', ' ', ' ', ' ', ' ', ' '],
   [' ', ' ', ' ', '■', '■', '■', ' ', '■', '■', '□', '■', '■', ' ', '■', '■', ' ', ' ', ' ', ' ', ' '],
   [' ', ' ', ' ', ' ', '■', ' ', ' ', ' ', '■', '■', '■', ' ', ' ', ' ', '■', '■', '■', ' ', ' ', ' '],
   [' ', ' ', ' ', ' ', '■', '■', '■', ' ', ' ', '■', ' ', ' ', '■', '■', '■', '■', '■', ' ', ' ', ' '],
   [' ', ' ', ' ', '■', '■', '■', '■', ' ', ' ', '■', ' ', ' ', '■', '■', '■', ' ', ' ', ' ', ' ', ' '],
   [' ', ' ', ' ', '■', '■', '■', '■', ' ', ' ', '■', ' ', ' ', ' ', ' ', '■', ' ', ' ', ' ', ' ', ' '],
   [' ', ' ', ' ', '■', ' ', ' ', ' ', ' ', '■', '■', '■', ' ', ' ', '■', '■', ' ', ' ', ' ', ' ', ' '],
   [' ', ' ', ' ', '■', '■', '■', '■', '■', '■', '■', '■', ' ', ' ', '■', '■', ' ', ' ', ' ', ' ', ' '],
   [' ', ' ', ' ', ' ', ' ', ' ', ' ', ' ', '■', ' ', '■', '■', '■', '■', ' ', ' ', ' ', ' ', ' ', ' '],
   [' ', ' ', ' ', ' ', ' ', ' ', ' ', ' ', ' ', ' ', ' ', ' ', ' ', ' ', ' ', ' ', ' ', ' ', ' ', ' '],
   [' ', ' ', ' ', ' ', ' ', ' ', ' ', ' ', ' ', ' ', ' ', ' ', ' ', ' ', ' ', ' ', ' ', ' ', ' ', ' '],
   [' ', ' ', ' ', ' ', ' ', ' ', ' ', ' ', ' ', ' ', ' ', ' ', ' ', ' ', ' ', ' ', ' ', ' ', ' ', ' ']
  ]
]

/-- `_BLOCK_POSITIONS` from level.js: per level, the initial X and Z position
of the block (all entries are integer literals). -/
def blockPositions : List (ℤ × ℤ) :=
  [(5, 1), (1, 1), (1, 1), (3, 0), (1, 0), (0, 0),
   (1, 3), (13, 3), (0, 3), (2, 7), (0, 5), (9, 14)]

/-- `Level.#createTile`: a tile mesh positioned at `(x, -0.1, z)`. -/
def createTile (x z : ℕ) : V3 :=
  ⟨(x : ℚ), -(1/10), (z : ℚ)⟩

/-- `Level.#createBlock`: a 1 by 2 by 1 mesh at height `y = 1`, with X and Z
taken from the level's initial position, in its default orientation. -/
def createBlock (position : ℤ × ℤ) : Block :=
  { position := ⟨(position.1 : ℚ), 1, (position.2 : ℚ)⟩, orient := idOrient }

/-- `Level.#boardFromLayout`: walk the layout row by row; a `'■'` pushes a
tile at `(j, i)`, a `'□'` pushes the (invisible) hole tile and records it as
the winning tile; anything else adds nothing. Returns the board together
with the recorded winning tile. -/
def boardFromLayout (layout : List (List Char)) : List V3 × Option V3 :=
  layout.enum.foldl
    (fun acc row =>
      row.2.enum.foldl
        (fun acc2 cell =>
          if cell.2 = '■' then (acc2.1 ++ [createTile cell.1 row.1], acc2.2)
          else if cell.2 = '□' then
            (acc2.1 ++ [createTile cell.1 row.1], some (createTile cell.1 row.1))
          else acc2)
        acc)
    ([], none)

/-- The `Level` constructor: build the board and the block for a level
number from the static layout and position data. -/
def mkLevel (levelNum : ℤ) : Level :=
  let bd := boardFromLayout (layouts.getD levelNum.toNat [])
  { levelNum := levelNum
    board := bd.1
    winTile := bd.2
    block := createBlock (blockPositions.getD levelNum.toNat (0, 0)) }

/-- `fadeOutInLevel` from animations.js composed with `changeLevel` from
main.js, stripped of the fade animation: a request whose target level number
is out of range returns with the current level untouched; otherwise the
level is replaced by a freshly built one at `levelNum + offset`. -/
def fadeOutInLevel (lvl : Level) (offset : ℤ) : Level :=
  if lvl.levelNum + offset < 0 ∨ lvl.levelNum + offset > totalLevels then lvl
  else mkLevel (lvl.levelNum + offset)

/-! ### Arithmetic facts about the rounding helpers -/

/-- `isInt` recognises exactly the integral rationals. -/
theorem isInt_iff (q : ℚ) : isInt q = true ↔ ∃ k : ℤ, q = (k : ℚ) := by
  unfold isInt
  rw [decide_eq_true_iff, sub_eq_zero]
  constructor
  · intro h
    exact ⟨jsTrunc q, h⟩
  · rintro ⟨k, rfl⟩
    unfold jsTrunc
    split <;> simp

/-- `isInt` holds on every integer cast. -/
theorem isInt_intCast (k : ℤ) : isInt ((k : ℚ)) = true :=
  (isInt_iff _).2 ⟨k, rfl⟩

/-- `isInt` fails on an integer shifted by one half. -/
theorem isInt_int_add_half (a : ℤ) : isInt ((a : ℚ) + 1/2) = false := by
  rw [Bool.eq_false_iff]
  intro h
  obtain ⟨k, hk⟩ := (isInt_iff _).1 h
  have h2 : ((2 * a + 1 : ℤ) : ℚ) = ((2 * k : ℤ) : ℚ) := by
    push_cast
    linarith
  have h3 : (2 * a + 1 : ℤ) = 2 * k := by exact_mod_cast h2
  omega

/-- `jsRound` fixes integer casts. -/
theorem jsRound_intCast (k : ℤ) : jsRound ((k : ℚ)) = k := by
  unfold jsRound
  rw [Int.floor_eq_iff] <;> push_cast <;> constructor <;> linarith

/-- `twoPtRound` fixes integer casts. -/
theorem twoPtRound_intCast (k : ℤ) : twoPtRound ((k : ℚ)) = k := by
  unfold twoPtRound jsRound
  have : ((k : ℚ) * 100 + 1/2) = ((100 * k : ℤ) : ℚ) + 1/2 := by push_cast; ring
  rw [this, Int.floor_int_add]
  norm_num

/-- `twoPtRound` fixes half-integers. -/
theorem twoPtRound_int_add_half (k : ℤ) : twoPtRound ((k : ℚ) + 1/2) = (k : ℚ) + 1/2 := by
  unfold twoPtRound jsRound
  have : (((k : ℚ) + 1/2) * 100 + 1/2) = ((100 * k + 50 : ℤ) : ℚ) + 1/2 := by push_cast; ring
  rw [this, Int.floor_int_add]
  push_cast
  ring

/-- `halfRound` fixes integer casts. -/
theorem halfRound_intCast (k : ℤ) : halfRound ((k : ℚ)) = k := by
  unfold halfRound jsRound
  have : ((k : ℚ) * 2 + 1/2) = ((2 * k : ℤ) : ℚ) + 1/2 := by push_cast; ring
  rw [this, Int.floor_int_add]
  push_cast
  norm_num

/-- `halfRound` fixes half-integers. -/
theorem halfRound_int_add_half (k : ℤ) : halfRound ((k : ℚ) + 1/2) = (k : ℚ) + 1/2 := by
  unfold halfRound jsRound
  have : (((k : ℚ) + 1/2) * 2 + 1/2) = ((2 * k + 1 : ℤ) : ℚ) + 1/2 := by push_cast; ring
  rw [this, Int.floor_int_add]
  push_cast
  norm_num
  ring

/-- Every `halfRound` value is an integer or an integer plus one half. -/
theorem halfRound_cases (q : ℚ) :
    (∃ k : ℤ, halfRound q = (k : ℚ)) ∨ (∃ k : ℤ, halfRound q = (k : ℚ) + 1/2) := by
  unfold halfRound
  rcases Int.even_or_odd (jsRound (q * 2)) with ⟨j, hj⟩ | ⟨j, hj⟩
  · left
    exact ⟨j, by rw [hj]; push_cast; ring⟩
  · right
    exact ⟨j, by rw [hj]; push_cast; ring⟩

/-- Floor of an integer plus one half. -/
theorem floor_int_add_half (k : ℤ) : ⌊(k : ℚ) + 1/2⌋ = k := by
  rw [Int.floor_int_add]
  norm_num

/-- Ceiling of an integer plus one half. -/
theorem ceil_int_add_half (k : ℤ) : ⌈(k : ℚ) + 1/2⌉ = k + 1 := by
  rw [add_comm, Int.ceil_add_int]
  have h1 : ⌈(1/2 : ℚ)⌉ = 1 := by
    rw [Int.ceil_eq_iff] <;> norm_num
  omega

/-- The ceiling of a rational as a negated floor (evaluation form). -/
theorem ceil_eq_neg_floor_neg (q : ℚ) : ⌈q⌉ = -⌊-q⌋ := by
  rw [Int.floor_neg, neg_neg]

/-- Negating the argument of `round half up` negates the result, provided the
argument is not exactly midway between two integers. -/
theorem floor_neg_add_half (r : ℚ) (h : ∀ k : ℤ, r ≠ (k : ℚ) + 1/2) :
    ⌊-r + 1/2⌋ = -⌊r + 1/2⌋ := by
  have h1 : ((⌊r + 1/2⌋ : ℤ) : ℚ) ≤ r + 1/2 := Int.floor_le _
  have h2 : r + 1/2 < (⌊r + 1/2⌋ : ℤ) + 1 := Int.lt_floor_add_one _
  have key : ⌈r - 1/2⌉ = ⌊r + 1/2⌋ := by
    rw [Int.ceil_eq_iff]
    constructor
    · by_contra hc
      push_neg at hc
      have hr : r = ((⌊r + 1/2⌋ - 1 : ℤ) : ℚ) + 1/2 := by
        push_cast
        linarith
      exact h _ hr
    · linarith
  have : (-r + 1/2 : ℚ) = -(r - 1/2) := by ring
  rw [this, Int.floor_neg, key]

/-! ### C10: rounding and integer test on negative values -/

/-- C10 counterexample: `halfRound` is not symmetric about zero. At
`x = 1/4`, `halfRound x = 1/2` but `halfRound (-x) = 0` (JavaScript
`Math.round` sends both `0.5` and `-0.5` toward positive infinity), so
`halfRound (-x) ≠ -halfRound x`. -/
theorem c10_half_symmetry_counterexample :
    halfRound (1/4 : ℚ) = 1/2 ∧ halfRound (-(1/4) : ℚ) = 0 ∧
    halfRound (-(1/4) : ℚ) ≠ -halfRound (1/4 : ℚ) := by
  norm_num [halfRound, jsRound]

/-- C10 (amended): the half-unit rounding function computes
`round(x * 2) / 2` where `round` is `⌊x + 1/2⌋` (round half toward positive
infinity, the JavaScript `Math.round`); it is symmetric about zero,
`halfRound (-x) = -halfRound (x)`, for every `x` except the midpoints where
`x * 4` is an odd integer (there the half is rounded up, e.g.
`halfRound (1/4) = 1/2` while `halfRound (-1/4) = 0`); and the integer test
`x modulo 1 == 0` holds exactly on the integers, negative whole numbers
included. -/
theorem c10_rounding_negatives_amended :
    (∀ q : ℚ, halfRound q = ((⌊q * 2 + 1/2⌋ : ℤ) : ℚ) / 2) ∧
    (∀ q : ℚ, (isInt (q * 4) = false ∨ isInt (q * 2) = true) →
       halfRound (-q) = -halfRound q) ∧
    (∀ q : ℚ, isInt q = true ↔ ∃ k : ℤ, q = (k : ℚ)) := by
  refine ⟨fun q => rfl, fun q h => ?_, isInt_iff⟩
  have hmid : ∀ k : ℤ, q * 2 ≠ (k : ℚ) + 1/2 := by
    intro k hk
    rcases h with h | h
    · have h4 : q * 4 = ((2 * k + 1 : ℤ) : ℚ) := by push_cast; linarith
      rw [h4, isInt_intCast] at h
      exact absurd h (by simp)
    · rw [hk, isInt_int_add_half] at h
      exact absurd h (by simp)
  have hfl : ⌊-(q * 2) + 1/2⌋ = -⌊q * 2 + 1/2⌋ := floor_neg_add_half _ hmid
  unfold halfRound jsRound
  have hneg : (-q) * 2 = -(q * 2) := by ring
  rw [hneg, hfl]
  push_cast
  ring

/-- C10 witness: the amended symmetry applied at the concrete off-midpoint
input `x = 1/5`. -/
theorem c10_rounding_negatives_witness :
    halfRound (-(1/5) : ℚ) = -halfRound (1/5 : ℚ) :=
  c10_rounding_negatives_amended.2.1 (1/5)
    (Or.inl (by norm_num [isInt, jsTrunc]))

/-! ### C2: cell classification -/

/-- C2: when both half-rounded coordinates of the block's position are whole
integers, classification returns exactly the one cell at that integer pair;
when exactly one of the two half-rounded coordinates is a half-integer,
classification returns exactly two cells, the floor and the ceiling of the
half-integer coordinate with the other coordinate fixed, i.e. two adjacent
cells differing by 1 along exactly that axis and agreeing on the other. -/
theorem c2_cell_classification (b : Block) :
    (isInt (halfRound b.position.x) = true ∧ isInt (halfRound b.position.z) = true →
       getBlockPos b = [⟨halfRound b.position.x, halfRound b.position.z⟩]) ∧
    (isInt (halfRound b.position.x) = true ∧ isInt (halfRound b.position.z) = false →
       ∃ a j : ℤ, halfRound b.position.x = (a : ℚ) ∧ halfRound b.position.z = (j : ℚ) + 1/2 ∧
         getBlockPos b = [⟨(a : ℚ), (j : ℚ)⟩, ⟨(a : ℚ), (j : ℚ) + 1⟩]) ∧
    (isInt (halfRound b.position.x) = false ∧ isInt (halfRound b.position.z) = true →
       ∃ j c : ℤ, halfRound b.position.x = (j : ℚ) + 1/2 ∧ halfRound b.position.z = (c : ℚ) ∧
         getBlockPos b = [⟨(j : ℚ), (c : ℚ)⟩, ⟨(j : ℚ) + 1, (c : ℚ)⟩]) := by
  refine ⟨fun h => ?_, fun h => ?_, fun h => ?_⟩
  · simp [getBlockPos, h.1, h.2]
  · obtain ⟨a, ha⟩ := (isInt_iff _).1 h.1
    obtain ⟨j, hj⟩ | ⟨j, hj⟩ := halfRound_cases b.position.z
    · rw [hj, isInt_intCast] at h
      exact absurd h.2 (by simp)
    · refine ⟨a, j, ha, hj, ?_⟩
      have hcond : (isInt (halfRound b.position.x) && isInt (halfRound b.position.z)) = false := by
        simp [h.2]
      simp only [getBlockPos, hcond, Bool.false_eq_true, if_false]
      rw [ha, hj, Int.floor_intCast, Int.ceil_intCast, floor_int_add_half, ceil_int_add_half]
      push_cast
      constructor <;> norm_num
  · obtain ⟨c, hc⟩ := (isInt_iff _).1 h.2
    obtain ⟨j, hj⟩ | ⟨j, hj⟩ := halfRound_cases b.position.x
    · rw [hj, isInt_intCast] at h
      exact absurd h.1 (by simp)
    · refine ⟨j, c, hj, hc, ?_⟩
      have hcond : (isInt (halfRound b.position.x) && isInt (halfRound b.position.z)) = false := by
        simp [h.1]
      simp only [getBlockPos, hcond, Bool.false_eq_true, if_false]
      rw [hc, hj, Int.floor_intCast, Int.ceil_intCast, floor_int_add_half, ceil_int_add_half]
      push_cast
      constructor <;> norm_num

/-- C2 witness: a block at `(1, 1, 1/2)` (lying along Z) classifies to the
two adjacent cells `(1,0)` and `(1,1)`. -/
theorem c2_cell_classification_witness :
    ∃ a j : ℤ,
      halfRound (Block.mk ⟨1, 1, 1/2⟩ idOrient).position.x = (a : ℚ) ∧
      halfRound (Block.mk ⟨1, 1, 1/2⟩ idOrient).position.z = (j : ℚ) + 1/2 ∧
      getBlockPos (Block.mk ⟨1, 1, 1/2⟩ idOrient) = [⟨(a : ℚ), (j : ℚ)⟩, ⟨(a : ℚ), (j : ℚ) + 1⟩] :=
  (c2_cell_classification _).2.1
    ⟨by norm_num [isInt, jsTrunc, halfRound, jsRound],
     by norm_num [isInt, jsTrunc, halfRound, jsRound]⟩

/-! ### C3: pivot offset rule -/

/-- C3: for a roll in the X direction the pivot offset `offsetRotPointX`
equals `1` exactly when the block is lying flat (its rounded y position
equals `0.5`) and its rounded z coordinate is a whole integer, and equals
`1/2` in every other state; symmetrically, `offsetRotPointZ` equals `1`
exactly when the rounded y equals `0.5` and the rounded x coordinate is a
whole integer, else `1/2`. -/
theorem c3_pivot_offset_rule (lvl : Level) :
    (offsetRotPointX lvl = 1 ↔
       twoPtRound lvl.block.position.y = 1/2 ∧ isInt (twoPtRound lvl.block.position.z) = true) ∧
    (offsetRotPointX lvl = 1/2 ↔
       ¬(twoPtRound lvl.block.position.y = 1/2 ∧ isInt (twoPtRound lvl.block.position.z) = true)) ∧
    (offsetRotPointZ lvl = 1 ↔
       twoPtRound lvl.block.position.y = 1/2 ∧ isInt (twoPtRound lvl.block.position.x) = true) ∧
    (offsetRotPointZ lvl = 1/2 ↔
       ¬(twoPtRound lvl.block.position.y = 1/2 ∧ isInt (twoPtRound lvl.block.position.x) = true)) := by
  unfold offsetRotPointX offsetRotPointZ
  refine ⟨?_, ?_, ?_, ?_⟩ <;> split <;> norm_num <;> simp_all

/-! ### C4: direction table -/

/-- C4: for each of the four roll directions the engine selects the pivot,
axis and signed angle of the direction table. The angle is
`ninetyDegRad * m`, so `m = -1` is a `-90°` turn and `m = 1` a `+90°` turn:
`+X` rotates about the world Z axis by `-90°` with pivot
`x = center.x + offsetX`, `-X` about Z by `+90°` with
`x = center.x - offsetX`, `+Z` about the world X axis by `+90°` with
`z = center.z + offsetZ`, and `-Z` about X by `-90°` with
`z = center.z - offsetZ` (stated for block centers that are fixed points of
the 2-decimal drift correction `twoPtRound`, which holds for every position
on the half-unit grid). -/
theorem c4_direction_table (lvl : Level)
    (hx : twoPtRound lvl.block.position.x = lvl.block.position.x)
    (hz : twoPtRound lvl.block.position.z = lvl.block.position.z) :
    rotParams lvl .posX = (⟨lvl.block.position.x + offsetRotPointX lvl, 0, 0⟩, .Z, -1) ∧
    rotParams lvl .negX = (⟨lvl.block.position.x - offsetRotPointX lvl, 0, 0⟩, .Z, 1) ∧
    rotParams lvl .posZ = (⟨0, 0, lvl.block.position.z + offsetRotPointZ lvl⟩, .X, 1) ∧
    rotParams lvl .negZ = (⟨0, 0, lvl.block.position.z - offsetRotPointZ lvl⟩, .X, -1) := by
  simp [rotParams, hx, hz]

/-- C4 witness: the direction table at the concrete level 0 (block standing
at `(5, 1)`). -/
theorem c4_direction_table_witness :
    rotParams (mkLevel 0) .posX =
      (⟨(mkLevel 0).block.position.x + offsetRotPointX (mkLevel 0), 0, 0⟩, .Z, -1) ∧
    rotParams (mkLevel 0) .negX =
      (⟨(mkLevel 0).block.position.x - offsetRotPointX (mkLevel 0), 0, 0⟩, .Z, 1) ∧
    rotParams (mkLevel 0) .posZ =
      (⟨0, 0, (mkLevel 0).block.position.z + offsetRotPointZ (mkLevel 0)⟩, .X, 1) ∧
    rotParams (mkLevel 0) .negZ =
      (⟨0, 0, (mkLevel 0).block.position.z - offsetRotPointZ (mkLevel 0)⟩, .X, -1) :=
  c4_direction_table (mkLevel 0)
    (by norm_num [mkLevel, createBlock, blockPositions, twoPtRound, jsRound])
    (by norm_num [mkLevel, createBlock, blockPositions, twoPtRound, jsRound])

/-! ### C8: the busy flag and the pause overlay drop roll requests -/

/-- C8: whenever the animation-playing flag is set or the pause overlay is
visible, a roll request is silently dropped: `handleBlockMovement` returns
without starting any rotation or bounce animation, and the block is left
exactly as it was. -/
theorem c8_busy_or_paused_drops_roll (animationPlaying pauseVisible : Bool)
    (lvl : Level) (rotDir : Dir)
    (h : animationPlaying = true ∨ pauseVisible = true) :
    handleBlockMovement animationPlaying pauseVisible lvl rotDir = .dropped ∧
    moveResult animationPlaying pauseVisible lvl rotDir = lvl.block := by
  have hg : (animationPlaying || pauseVisible) = true := by
    rcases h with h | h <;> simp [h]
  unfold moveResult handleBlockMovement
  rw [hg]
  simp

/-- C8 witness: a `+X` roll request on level 0 while an animation is
playing is dropped and leaves the block untouched. -/
theorem c8_busy_or_paused_drops_roll_witness :
    handleBlockMovement true false (mkLevel 0) .posX = .dropped ∧
    moveResult true false (mkLevel 0) .posX = (mkLevel 0).block :=
  c8_busy_or_paused_drops_roll true false (mkLevel 0) .posX (Or.inl rfl)

/-! ### C5: win detection -/

/-- C5: the win check returns `true` exactly when the block's cell
classification yields a single cell (the standing case) whose coordinates
equal the winning tile's, and a block lying flat (two-cell classification)
never registers a win even when one of its two cells is the winning cell. -/
theorem c5_win_check (b : Block) (winTilePos : V3) :
    (checkForWin (getBlockPos b) winTilePos = true ↔
       ∃ c, getBlockPos b = [c] ∧ c.x = winTilePos.x ∧ c.z = winTilePos.z) ∧
    (∀ c d, getBlockPos b = [c, d] → checkForWin (getBlockPos b) winTilePos = false) := by
  constructor
  · constructor
    · intro h
      cases hbp : getBlockPos b with
      | nil => rw [hbp] at h; exact absurd h (by simp [checkForWin])
      | cons p rest =>
        cases rest with
        | nil =>
          rw [hbp] at h
          simp only [checkForWin, decide_eq_true_eq] at h
          exact ⟨p, rfl, h⟩
        | cons q rest2 => rw [hbp] at h; exact absurd h (by simp [checkForWin])
    · rintro ⟨c, hc, hx, hz⟩
      rw [hc]
      simp [checkForWin, hx, hz]
  · intro c d h
    rw [h]
    simp [checkForWin]

/-- C5 witness: a block lying along X over the cells `(0,0)` and `(1,0)`
with the winning tile at `(0, -0.1, 0)` does not win, even though its first
occupied cell is the winning cell. -/
theorem c5_win_check_witness :
    checkForWin (getBlockPos (Block.mk ⟨1/2, 1/2, 0⟩ idOrient)) ⟨0, -(1/10), 0⟩ = false ∧
    getBlockPos (Block.mk ⟨1/2, 1/2, 0⟩ idOrient) = [⟨0, 0⟩, ⟨1, 0⟩] := by
  have hbp : getBlockPos (Block.mk ⟨1/2, 1/2, 0⟩ idOrient) = [⟨0, 0⟩, ⟨1, 0⟩] := by
    norm_num [getBlockPos, isInt, jsTrunc, halfRound, jsRound, ceil_eq_neg_floor_neg]
  exact ⟨(c5_win_check (Block.mk ⟨1/2, 1/2, 0⟩ idOrient) ⟨0, -(1/10), 0⟩).2 ⟨0, 0⟩ ⟨1, 0⟩ hbp, hbp⟩

/-! ### C1: validity of a roll is the all-or-nothing tile test -/

/-- The `forEach` accumulator of `isValidRotation` is the conjunction of the
per-cell tests. -/
theorem foldl_validity (P : V2 → Bool) (l : List V2) (acc : Bool) :
    l.foldl (fun isValid blockPos => if P blockPos then isValid else false) acc
      = (acc && l.all P) := by
  induction l generalizing acc with
  | nil => simp
  | cons p t ih =>
    rw [List.foldl_cons, List.all_cons, ih]
    cases hP : P p <;> simp [hP, Bool.and_assoc]

/-- `isValidRotation` succeeds exactly when every future cell of the rotated
probe matches some board tile's coordinates. -/
theorem isValidRotation_eq_true_iff (lvl : Level) (point : V3) (axis : RotAxis) (m : ℤ) :
    isValidRotation lvl point axis m = true ↔
      ∀ c ∈ getBlockPos (getRotatedClone lvl.block point axis m),
        ∃ t ∈ lvl.board, t.x = c.x ∧ t.z = c.z := by
  unfold isValidRotation
  rw [foldl_validity, Bool.true_and, List.all_eq_true]
  constructor
  · intro h c hc
    have := h c hc
    rw [List.any_eq_true] at this
    obtain ⟨tp, htp, heq⟩ := this
    rw [List.mem_map] at htp
    obtain ⟨t, ht, rfl⟩ := htp
    rw [decide_eq_true_eq] at heq
    exact ⟨t, ht, heq⟩
  · intro h c hc
    obtain ⟨t, ht, heq⟩ := h c hc
    rw [List.any_eq_true]
    exact ⟨V2.mk t.x t.z, List.mem_map.2 ⟨t, ht, rfl⟩, decide_eq_true heq⟩

/-- C1: with no animation in flight and the pause overlay hidden, the engine
declares the attempted roll legal (outcome `rotate` rather than `bounce`)
if and only if every board cell occupied by the probe block after the
candidate 90-degree rotation is present in the board's tile coordinates; if
any one of the one-or-two future cells is missing from the tile set, the
roll is rejected. -/
theorem c1_roll_legal_iff_all_future_cells_tiled (lvl : Level) (rotDir : Dir) :
    (∃ point axis m, handleBlockMovement false false lvl rotDir = .rotate point axis m) ↔
      ∀ c ∈ getBlockPos
          (getRotatedClone lvl.block (rotParams lvl rotDir).1 (rotParams lvl rotDir).2.1
            (rotParams lvl rotDir).2.2),
        ∃ t ∈ lvl.board, t.x = c.x ∧ t.z = c.z := by
  rw [← isValidRotation_eq_true_iff]
  unfold handleBlockMovement
  simp only [Bool.or_self, Bool.false_eq_true, if_false]
  constructor
  · rintro ⟨point, axis, m, h⟩
    by_contra hv
    rw [Bool.not_eq_true] at hv
    rw [if_neg (by simp [hv])] at h
    exact MoveOutcome.noConfusion h
  · intro hv
    rw [if_pos hv]
    exact ⟨_, _, _, rfl⟩

/-! ### C7: level-change bounds -/

/-- C7: a level-change request whose target index `levelNum + offset` is
below `0` or above the maximum valid level index (`totalLevels`, which
equals the number of stored layouts minus one) is a no-op: the current level
value persists unchanged; for every in-range index the level is replaced by
the deterministically built level at the computed index. -/
theorem c7_level_change_bounds (lvl : Level) (offset : ℤ) :
    ((lvl.levelNum + offset < 0 ∨ lvl.levelNum + offset > totalLevels) →
       fadeOutInLevel lvl offset = lvl) ∧
    (0 ≤ lvl.levelNum + offset → lvl.levelNum + offset ≤ totalLevels →
       fadeOutInLevel lvl offset = mkLevel (lvl.levelNum + offset)) ∧
    totalLevels = (layouts.length : ℤ) - 1 := by
  refine ⟨fun h => ?_, fun h1 h2 => ?_, ?_⟩
  · rw [fadeOutInLevel, if_pos h]
  · rw [fadeOutInLevel, if_neg (by omega)]
  · have hlen : layouts.length = 12 := rfl
    norm_num [totalLevels, hlen]

/-- C7 witness: from level 0, a request for level `-1` is a no-op and a
request for level `1` builds level 1. -/
theorem c7_level_change_bounds_witness :
    fadeOutInLevel (mkLevel 0) (-1) = mkLevel 0 ∧
    fadeOutInLevel (mkLevel 0) 1 = mkLevel ((mkLevel 0).levelNum + 1) := by
  have h0 : (mkLevel 0).levelNum = 0 := rfl
  exact ⟨(c7_level_change_bounds (mkLevel 0) (-1)).1 (by rw [h0]; norm_num),
         (c7_level_change_bounds (mkLevel 0) 1).2.1 (by rw [h0]; norm_num)
           (by rw [h0]; norm_num [totalLevels])⟩

/-! ### C9: four equal quarter turns are the identity -/

/-- C9: applying the rotate-about-world-pivot primitive four times with the
same pivot point, the same axis, and the same `±90°` angle each time returns
the body's position and orientation to their original values exactly (the
orientation here being the rotation the body's quaternion represents; the
quaternion itself is negated by a full turn, which is the same rotation). -/
theorem c9_four_quarter_turns_identity (b : Block) (point : V3) (axis : RotAxis) (m : ℤ)
    (h : m = 1 ∨ m = -1) :
    rotateAroundWorldAxis
      (rotateAroundWorldAxis
        (rotateAroundWorldAxis
          (rotateAroundWorldAxis b point axis m) point axis m) point axis m) point axis m
      = b := by
  rcases h with rfl | rfl <;> cases axis <;>
    (ext <;> simp [rotateAroundWorldAxis, quarterRot] <;> push_cast <;> ring)

/-- C9 witness: four `-90°` turns about the Z axis through `(3/2, 0, 0)`
bring the level-0 block back exactly. -/
theorem c9_four_quarter_turns_identity_witness :
    rotateAroundWorldAxis
      (rotateAroundWorldAxis
        (rotateAroundWorldAxis
          (rotateAroundWorldAxis (mkLevel 0).block ⟨3/2, 0, 0⟩ .Z (-1)) ⟨3/2, 0, 0⟩ .Z (-1))
        ⟨3/2, 0, 0⟩ .Z (-1)) ⟨3/2, 0, 0⟩ .Z (-1)
      = (mkLevel 0).block :=
  c9_four_quarter_turns_identity (mkLevel 0).block ⟨3/2, 0, 0⟩ .Z (-1) (Or.inr rfl)

/-! ### C6: classification consistency of reachable states -/

/-- Rounded evaluation of `twoPtRound` at `1`. -/
theorem twoPtRound_one : twoPtRound (1 : ℚ) = 1 := by
  have h := twoPtRound_intCast 1
  push_cast at h
  exact h

/-- Rounded evaluation of `twoPtRound` at `1/2`. -/
theorem twoPtRound_half : twoPtRound (1/2 : ℚ) = 1/2 := by
  have h := twoPtRound_int_add_half 0
  push_cast at h
  simpa using h

/-- Two cells are adjacent when they differ by exactly one along exactly one
of the two axes and agree on the other. -/
def adjacentb (p q : V2) : Bool :=
  decide ((q.x - p.x = 1 ∨ q.x - p.x = -1) ∧ q.z = p.z) ||
  decide (q.x = p.x ∧ (q.z - p.z = 1 ∨ q.z - p.z = -1))

/-- A classification result is consistent when it is a single cell or a pair
of adjacent cells — never empty, never more than two cells, and never two
non-adjacent (diagonal) cells. -/
def classOKb : List V2 → Bool
  | [_] => true
  | [p, q] => adjacentb p q
  | _ => false

/-- Propositional form of `classOKb`. -/
def classOK (l : List V2) : Prop := classOKb l = true

/-- The structural invariant actually preserved by the engine: the block
either stands on an integer cell at center height `1`, or lies at center
height `1/2` with exactly one coordinate offset by one half. -/
def GoodState (b : Block) : Prop :=
  (∃ a c : ℤ, b.position = ⟨(a : ℚ), 1, (c : ℚ)⟩) ∨
  (∃ a c : ℤ, b.position = ⟨(a : ℚ) + 1/2, 1/2, (c : ℚ)⟩) ∨
  (∃ a c : ℤ, b.position = ⟨(a : ℚ), 1/2, (c : ℚ) + 1/2⟩)

/-- The block states reachable in a level: its initial block, and anything a
roll request (handled when idle and unpaused) produces from a reachable
state. -/
inductive Reachable (lvl : Level) : Block → Prop where
  | init : Reachable lvl lvl.block
  | step (b : Block) (rotDir : Dir) : Reachable lvl b →
      Reachable lvl (moveResult false false { lvl with block := b } rotDir)

/-- A freshly created block stands at its integer initial position. -/
theorem goodState_createBlock (p : ℤ × ℤ) : GoodState (createBlock p) :=
  Or.inl ⟨p.1, p.2, rfl⟩

/-- The engine's own rotation, about the pivot and axis it computes for any
of the four directions, preserves the structural invariant. -/
theorem goodState_rotParams (lvl : Level) (rotDir : Dir) (h : GoodState lvl.block) :
    GoodState (rotateAroundWorldAxis lvl.block (rotParams lvl rotDir).1
      (rotParams lvl rotDir).2.1 (rotParams lvl rotDir).2.2) := by
  cases rotDir with
  | posX =>
    rcases h with ⟨a, c, hp⟩ | ⟨a, c, hp⟩ | ⟨a, c, hp⟩
    · have hox : offsetRotPointX lvl = 1/2 := by
        rw [offsetRotPointX, hp]
        dsimp only
        rw [twoPtRound_one]
        norm_num
      refine Or.inr (Or.inl ⟨a + 1, c, ?_⟩)
      simp only [rotParams]
      rw [hox]
      simp only [rotateAroundWorldAxis, quarterRot, hp]
      ext <;> (dsimp only; push_cast [twoPtRound_intCast]; ring)
    · have hox : offsetRotPointX lvl = 1 := by
        rw [offsetRotPointX, hp]
        dsimp only
        rw [twoPtRound_half, twoPtRound_intCast, isInt_intCast]
        norm_num
      refine Or.inl ⟨a + 2, c, ?_⟩
      simp only [rotParams]
      rw [hox]
      simp only [rotateAroundWorldAxis, quarterRot, hp]
      ext <;> (dsimp only; push_cast [twoPtRound_int_add_half]; ring)
    · have hox : offsetRotPointX lvl = 1/2 := by
        rw [offsetRotPointX, hp]
        dsimp only
        rw [twoPtRound_half, twoPtRound_int_add_half, isInt_int_add_half]
        norm_num
      refine Or.inr (Or.inr ⟨a + 1, c, ?_⟩)
      simp only [rotParams]
      rw [hox]
      simp only [rotateAroundWorldAxis, quarterRot, hp]
      ext <;> (dsimp only; push_cast [twoPtRound_intCast]; ring)
  | negX =>
    rcases h with ⟨a, c, hp⟩ | ⟨a, c, hp⟩ | ⟨a, c, hp⟩
    · have hox : offsetRotPointX lvl = 1/2 := by
        rw [offsetRotPointX, hp]
        dsimp only
        rw [twoPtRound_one]
        norm_num
      refine Or.inr (Or.inl ⟨a - 2, c, ?_⟩)
      simp only [rotParams]
      rw [hox]
      simp only [rotateAroundWorldAxis, quarterRot, hp]
      ext <;> (dsimp only; push_cast [twoPtRound_intCast]; ring)
    · have hox : offsetRotPointX lvl = 1 := by
        rw [offsetRotPointX, hp]
        dsimp only
        rw [twoPtRound_half, twoPtRound_intCast, isInt_intCast]
        norm_num
      refine Or.inl ⟨a - 1, c, ?_⟩
      simp only [rotParams]
      rw [hox]
      simp only [rotateAroundWorldAxis, quarterRot, hp]
      ext <;> (dsimp only; push_cast [twoPtRound_int_add_half]; ring)
    · have hox : offsetRotPointX lvl = 1/2 := by
        rw [offsetRotPointX, hp]
        dsimp only
        rw [twoPtRound_half, twoPtRound_int_add_half, isInt_int_add_half]
        norm_num
      refine Or.inr (Or.inr ⟨a - 1, c, ?_⟩)
      simp only [rotParams]
      rw [hox]
      simp only [rotateAroundWorldAxis, quarterRot, hp]
      ext <;> (dsimp only; push_cast [twoPtRound_intCast]; ring)
  | posZ =>
    rcases h with ⟨a, c, hp⟩ | ⟨a, c, hp⟩ | ⟨a, c, hp⟩
    · have hoz : offsetRotPointZ lvl = 1/2 := by
        rw [offsetRotPointZ, hp]
        dsimp only
        rw [twoPtRound_one]
        norm_num
      refine Or.inr (Or.inr ⟨a, c + 1, ?_⟩)
      simp only [rotParams]
      rw [hoz]
      simp only [rotateAroundWorldAxis, quarterRot, hp]
      ext <;> (dsimp only; push_cast [twoPtRound_intCast]; ring)
    · have hoz : offsetRotPointZ lvl = 1/2 := by
        rw [offsetRotPointZ, hp]
        dsimp only
        rw [twoPtRound_half, twoPtRound_int_add_half, isInt_int_add_half]
        norm_num
      refine Or.inr (Or.inl ⟨a, c + 1, ?_⟩)
      simp only [rotParams]
      rw [hoz]
      simp only [rotateAroundWorldAxis, quarterRot, hp]
      ext <;> (dsimp only; push_cast [twoPtRound_intCast]; ring)
    · have hoz : offsetRotPointZ lvl = 1 := by
        rw [offsetRotPointZ, hp]
        dsimp only
        rw [twoPtRound_half, twoPtRound_intCast, isInt_intCast]
        norm_num
      refine Or.inl ⟨a, c + 2, ?_⟩
      simp only [rotParams]
      rw [hoz]
      simp only [rotateAroundWorldAxis, quarterRot, hp]
      ext <;> (dsimp only; push_cast [twoPtRound_int_add_half]; ring)
  | negZ =>
    rcases h with ⟨a, c, hp⟩ | ⟨a, c, hp⟩ | ⟨a, c, hp⟩
    · have hoz : offsetRotPointZ lvl = 1/2 := by
        rw [offsetRotPointZ, hp]
        dsimp only
        rw [twoPtRound_one]
        norm_num
      refine Or.inr (Or.inr ⟨a, c - 2, ?_⟩)
      simp only [rotParams]
      rw [hoz]
      simp only [rotateAroundWorldAxis, quarterRot, hp]
      ext <;> (dsimp only; push_cast [twoPtRound_intCast]; ring)
    · have hoz : offsetRotPointZ lvl = 1/2 := by
        rw [offsetRotPointZ, hp]
        dsimp only
        rw [twoPtRound_half, twoPtRound_int_add_half, isInt_int_add_half]
        norm_num
      refine Or.inr (Or.inl ⟨a, c - 1, ?_⟩)
      simp only [rotParams]
      rw [hoz]
      simp only [rotateAroundWorldAxis, quarterRot, hp]
      ext <;> (dsimp only; push_cast [twoPtRound_intCast]; ring)
    · have hoz : offsetRotPointZ lvl = 1 := by
        rw [offsetRotPointZ, hp]
        dsimp only
        rw [twoPtRound_half, twoPtRound_intCast, isInt_intCast]
        norm_num
      refine Or.inl ⟨a, c - 1, ?_⟩
      simp only [rotParams]
      rw [hoz]
      simp only [rotateAroundWorldAxis, quarterRot, hp]
      ext <;> (dsimp only; push_cast [twoPtRound_int_add_half]; ring)

/-- A completed roll request (handled while idle and unpaused) preserves the
structural invariant, whether it was accepted, rejected, or dropped. -/
theorem goodState_moveResult (lvl : Level) (rotDir : Dir) (h : GoodState lvl.block) :
    GoodState (moveResult false false lvl rotDir) := by
  unfold moveResult handleBlockMovement
  simp only [Bool.or_self, Bool.false_eq_true, if_false]
  by_cases hv : isValidRotation lvl (rotParams lvl rotDir).1 (rotParams lvl rotDir).2.1
      (rotParams lvl rotDir).2.2 = true
  · rw [if_pos hv]
    exact goodState_rotParams lvl rotDir h
  · rw [if_neg hv]
    exact h

/-- The structural invariant implies a consistent classification. -/
theorem goodState_classOK (b : Block) (h : GoodState b) : classOK (getBlockPos b) := by
  rcases h with ⟨a, c, hp⟩ | ⟨a, c, hp⟩ | ⟨a, c, hp⟩
  · have hbp : getBlockPos b = [⟨(a : ℚ), (c : ℚ)⟩] := by
      simp only [getBlockPos, hp]
      rw [halfRound_intCast, halfRound_intCast]
      simp [isInt_intCast]
    rw [classOK, hbp]
    rfl
  · have hbp : getBlockPos b = [⟨(a : ℚ), (c : ℚ)⟩, ⟨(a : ℚ) + 1, (c : ℚ)⟩] := by
      simp only [getBlockPos, hp]
      rw [halfRound_int_add_half, halfRound_intCast]
      rw [isInt_int_add_half]
      simp only [Bool.false_and, Bool.false_eq_true, if_false]
      rw [floor_int_add_half, ceil_int_add_half, Int.floor_intCast, Int.ceil_intCast]
      push_cast
      constructor <;> norm_num
    rw [classOK, hbp]
    simp only [classOKb, adjacentb]
    rw [Bool.or_eq_true, decide_eq_true_eq, decide_eq_true_eq]
    left
    refine ⟨Or.inl (by ring), ?_⟩
    trivial
  · have hbp : getBlockPos b = [⟨(a : ℚ), (c : ℚ)⟩, ⟨(a : ℚ), (c : ℚ) + 1⟩] := by
      simp only [getBlockPos, hp]
      rw [halfRound_int_add_half, halfRound_intCast]
      rw [isInt_int_add_half]
      simp only [Bool.and_false, Bool.false_eq_true, if_false]
      rw [floor_int_add_half, ceil_int_add_half, Int.floor_intCast, Int.ceil_intCast]
      push_cast
      constructor <;> norm_num
    rw [classOK, hbp]
    simp only [classOKb, adjacentb]
    rw [Bool.or_eq_true, decide_eq_true_eq, decide_eq_true_eq]
    right
    refine ⟨?_, Or.inl (by ring)⟩
    trivial

/-- C6 (amended): every block state reachable in a level — the level's
initial block, or the completed result of any roll request issued from a
reachable state — classifies to exactly one cell or to exactly two adjacent
cells: never zero, never more than two, and never two non-adjacent
(diagonal) cells. The induction goes through the stronger structural
invariant `GoodState` (standing on integer coordinates at height 1, or
lying at height 1/2 with exactly one coordinate offset by a half), because
classification-consistency alone is not preserved by an accepted roll. -/
theorem c6_reachable_classification_amended (levelNum : ℤ) (b : Block)
    (h : Reachable (mkLevel levelNum) b) : classOK (getBlockPos b) := by
  have good : GoodState b := by
    induction h with
    | init => exact goodState_createBlock _
    | step b0 rotDir _ ih =>
      exact goodState_moveResult { mkLevel levelNum with block := b0 } rotDir ih
  exact goodState_classOK b good

/-- C6 witness: the initial block of level 0 classifies consistently. -/
theorem c6_reachable_classification_witness :
    classOK (getBlockPos (mkLevel 0).block) :=
  c6_reachable_classification_amended 0 (mkLevel 0).block Reachable.init

/-- A classification-consistent but ill-formed block state: standing height
`y = 1` with the footprint nevertheless split along Z. -/
def c6Block : Block := ⟨⟨0, 1, 1/2⟩, idOrient⟩

/-- A level holding `c6Block` and exactly the two tiles that make the `+X`
roll from it legal. -/
def c6Level : Level :=
  { levelNum := 0,
    board := [⟨1, -(1/10), 0⟩, ⟨2, -(1/10), 1⟩],
    winTile := none,
    block := c6Block }

/-- C6 counterexample: classification-consistency alone is not inductive.
The state `c6Block` at `(0, 1, 1/2)` is classification-consistent (cells
`(0,0)` and `(0,1)`), the engine accepts the `+X` roll about its computed
pivot `(1/2, 0, 0)` on the board of `c6Level`, yet the resulting state at
`(3/2, 1/2, 1/2)` classifies to the two diagonal cells `(1,0)` and `(2,1)`,
which is not a consistent classification. -/
theorem c6_consistency_not_inductive_counterexample :
    classOK (getBlockPos c6Level.block) ∧
    handleBlockMovement false false c6Level .posX = .rotate ⟨1/2, 0, 0⟩ .Z (-1) ∧
    ¬ classOK (getBlockPos (moveResult false false c6Level .posX)) := by
  have hbp : getBlockPos c6Level.block = [⟨0, 0⟩, ⟨0, 1⟩] := by
    norm_num [getBlockPos, c6Level, c6Block, isInt, jsTrunc, halfRound, jsRound,
      ceil_eq_neg_floor_neg]
  have hparams : rotParams c6Level .posX = (⟨1/2, 0, 0⟩, .Z, -1) := by
    norm_num [rotParams, offsetRotPointX, c6Level, c6Block, twoPtRound, jsRound]
  have hfut : getBlockPos (getRotatedClone c6Level.block ⟨1/2, 0, 0⟩ .Z (-1))
      = [⟨1, 0⟩, ⟨2, 1⟩] := by
    norm_num [getBlockPos, getRotatedClone, rotateAroundWorldAxis, quarterRot, c6Level,
      c6Block, isInt, jsTrunc, halfRound, jsRound, ceil_eq_neg_floor_neg]
  have hvalid : isValidRotation c6Level ⟨1/2, 0, 0⟩ .Z (-1) = true := by
    rw [isValidRotation_eq_true_iff, hfut]
    intro cell hc
    simp only [List.mem_cons, List.mem_singleton, List.not_mem_nil, or_false] at hc
    rcases hc with rfl | rfl
    · exact ⟨⟨1, -(1/10), 0⟩, by simp [c6Level], rfl, rfl⟩
    · exact ⟨⟨2, -(1/10), 1⟩, by simp [c6Level], rfl, rfl⟩
  have hmove : handleBlockMovement false false c6Level .posX = .rotate ⟨1/2, 0, 0⟩ .Z (-1) := by
    unfold handleBlockMovement
    simp only [Bool.or_self, Bool.false_eq_true, if_false, hparams]
    rw [if_pos hvalid]
  refine ⟨?_, hmove, ?_⟩
  · rw [classOK, hbp]
    norm_num [classOKb, adjacentb]
  · have hres : moveResult false false c6Level .posX
        = rotateAroundWorldAxis c6Level.block ⟨1/2, 0, 0⟩ .Z (-1) := by
      unfold moveResult
      rw [hmove]
    rw [classOK, hres, ← getRotatedClone, hfut]
    norm_num [classOKb, adjacentb]

/-- A three-tile strip level with the block standing on its left end, used
to exercise the validity rule on a legal roll. -/
def c1Level : Level :=
  { levelNum := 0,
    board := [⟨0, -(1/10), 0⟩, ⟨1, -(1/10), 0⟩, ⟨2, -(1/10), 0⟩],
    winTile := none,
    block := ⟨⟨0, 1, 0⟩, idOrient⟩ }

/-- C1 witness: on the three-tile strip, the `+X` roll from the standing
block is declared legal because both future cells `(1,0)` and `(2,0)` are
tiled. -/
theorem c1_roll_legal_witness :
    ∃ point axis m,
      handleBlockMovement false false c1Level .posX = .rotate point axis m := by
  apply (c1_roll_legal_iff_all_future_cells_tiled c1Level .posX).mpr
  have hparams : rotParams c1Level .posX = (⟨1/2, 0, 0⟩, .Z, -1) := by
    norm_num [rotParams, offsetRotPointX, c1Level, twoPtRound, jsRound]
  rw [hparams]
  have hfut : getBlockPos (getRotatedClone c1Level.block ⟨1/2, 0, 0⟩ .Z (-1))
      = [⟨1, 0⟩, ⟨2, 0⟩] := by
    norm_num [getBlockPos, getRotatedClone, rotateAroundWorldAxis, quarterRot, c1Level,
      isInt, jsTrunc, halfRound, jsRound, ceil_eq_neg_floor_neg]
  rw [hfut]
  intro cell hc
  simp only [List.mem_cons, List.mem_singleton, List.not_mem_nil, or_false] at hc
  rcases hc with rfl | rfl
  · exact ⟨⟨1, -(1/10), 0⟩, by simp [c1Level], rfl, rfl⟩
  · exact ⟨⟨2, -(1/10), 0⟩, by simp [c1Level], rfl, rfl⟩

/-- C3 witness: on level 0 the block stands (rounded y is `1`, not `1/2`),
so both pivot offsets evaluate to `1/2`. -/
theorem c3_pivot_offset_rule_witness :
    offsetRotPointX (mkLevel 0) = 1/2 ∧ offsetRotPointZ (mkLevel 0) = 1/2 := by
  have hy : (mkLevel 0).block.position.y = 1 := rfl
  constructor
  · apply (c3_pivot_offset_rule (mkLevel 0)).2.1.mpr
    intro hcontra
    have h1 := hcontra.1
    rw [hy, twoPtRound_one] at h1
    norm_num at h1
  · apply (c3_pivot_offset_rule (mkLevel 0)).2.2.2.mpr
    intro hcontra
    have h1 := hcontra.1
    rw [hy, twoPtRound_one] at h1
    norm_num at h1
